import Mathlib

/-!
Verification development for the commitment/proof subsystem of a
privacy-preserving asset-pool client (`src/app/withdraw/lib/merkle.ts`).

The TypeScript source is shallowly embedded:
* strings are `List Char` (for hex inputs) or `String` (for wire values),
* `Uint8Array` values are `List Nat` with entries in `[0, 256)`,
* `bigint` inputs are `Nat` (the claims restrict them to unsigned 256-bit),
* thrown exceptions are `Except String`,
* the Keccak-256 hash from the viem library is an abstract parameter
  `keccak : List Nat → List Nat` (the library renders its 32-byte output as a
  lowercase 0x-hex string; where the code consumes that string we apply
  `toHexString`),
* network I/O (the browser fetch API) is an explicit environment `Env` giving
  the response to each request as a function of a logical clock, together with
  a state `NetState` recording the clock and the trace of issued requests.
-/

deriving instance DecidableEq for Except

/-- Numeric value of a hex digit character, `none` when the character is not a
hex digit (mirrors the character classes accepted by JavaScript `parseInt`
with radix 16: 0-9, a-f, A-F). -/
def hexDigitVal (c : Char) : Option Nat :=
  if 48 ≤ c.toNat ∧ c.toNat ≤ 57 then some (c.toNat - 48)
  else if 97 ≤ c.toNat ∧ c.toNat ≤ 102 then some (c.toNat - 87)
  else if 65 ≤ c.toNat ∧ c.toNat ≤ 70 then some (c.toNat - 55)
  else none

/-- JavaScript whitespace characters stripped by `parseInt` (the ASCII ones;
the inputs of interest contain no exotic Unicode whitespace). -/
def isJsWhitespace (c : Char) : Bool :=
  c.toNat == 32 || c.toNat == 9 || c.toNat == 10 || c.toNat == 13 ||
    c.toNat == 11 || c.toNat == 12

/-- Unsigned part of JavaScript `parseInt(s, 16)`: an optional `0x`/`0X`
prefix is stripped, then the longest leading run of hex digits is read;
`none` models `NaN` (no digits). -/
def jsParseUnsigned (s : List Char) : Option Nat :=
  let s' :=
    match s with
    | c0 :: c1 :: rest => if c0 = '0' ∧ (c1 = 'x' ∨ c1 = 'X') then rest else s
    | _ => s
  let ds := s'.takeWhile (fun c => (hexDigitVal c).isSome)
  if ds.isEmpty then none
  else some (ds.foldl (fun acc c => acc * 16 + (hexDigitVal c).getD 0) 0)

/-- JavaScript `parseInt(s, 16)`: leading whitespace is skipped, an optional
sign is read, then the unsigned part; `none` models `NaN`. -/
def jsParseInt (s : List Char) : Option Int :=
  match s.dropWhile isJsWhitespace with
  | [] => none
  | c :: rest =>
    if c = '-' then (jsParseUnsigned rest).map (fun n => -(Int.ofNat n))
    else if c = '+' then (jsParseUnsigned rest).map Int.ofNat
    else (jsParseUnsigned (c :: rest)).map Int.ofNat

/-- Storing a JavaScript number into a `Uint8Array` slot: `NaN` becomes 0,
any integer is reduced modulo 256 (the ToUint8 conversion). -/
def toUint8 : Option Int → Nat
  | none => 0
  | some v => (v % 256).toNat

/-- Strips a leading lowercase "0x", as in
`hex.startsWith("0x") ? hex.substring(2) : hex`. -/
def stripPfx (s : List Char) : List Char :=
  if s.take 2 = ['0', 'x'] then s.drop 2 else s

/-- Consecutive non-overlapping character pairs; for an even-length string
these are exactly the substrings `hex.substring(2*i, 2*i+2)` read by the
decoding loop. -/
def pairUp : List Char → List (Char × Char)
  | c0 :: c1 :: rest => (c0, c1) :: pairUp rest
  | _ => []

/-- Embedding of `hexToBytes` (merkle.ts:53-61): strip an optional "0x",
allocate a `Uint8Array` of `hex.length / 2` slots — for an odd length the
fractional value is truncated by ToIndex, so `new Uint8Array(1.5)` has one
slot and the trailing nibble is silently dropped — and fill each slot with
`parseInt(hex.substring(2*i, 2*i+2), 16)` coerced by ToUint8. `pairUp`
yields exactly these `floor(length / 2)` pairs for either parity. The
function cannot fail; the `Except` wrapper only mirrors the convention used
for the fallible operations of this module. -/
def hexToBytes (hex : List Char) : Except String (List Nat) :=
  let h := stripPfx hex
  .ok ((pairUp h).map (fun p => toUint8 (jsParseInt [p.1, p.2])))

/-- Big-endian 32-byte encoding loop of `calculateCommitment`
(merkle.ts:31-34): index `31 - i` receives `(v >> 8*i) & 0xff`, i.e. index
`j` receives `(v >> 8*(31-j)) & 0xff`. -/
def beBytes32 (v : Nat) : List Nat :=
  (List.range 32).map (fun j => v / 256 ^ (31 - j) % 256)

/-- Model of `TypedArray.set(src, offset)`: copies `src` into the
destination starting at `offset`, leaving the other entries (always called
in-range by `calculateCommitment`). -/
def uset : List Nat → List Nat → Nat → List Nat
  | [], _, _ => []
  | d :: ds, src, off =>
    match off, src with
    | 0, [] => d :: ds
    | 0, s :: ss => s :: uset ds ss 0
    | o + 1, rest => d :: uset ds rest o

/-- Embedding of `calculateCommitment` (merkle.ts:19-51): decode the two hex
strings (the error branches mirror how a thrown decode exception would
propagate uncaught; `hexToBytes` in fact never fails), build the 32-byte
big-endian encodings of
assetId and amount, assemble the zero-initialised `combined` buffer with four
`set` calls, and hash it. `keccak` abstracts viem's keccak256 at the level of
the hash bytes. -/
def calculateCommitment (keccak : List Nat → List Nat) (secret nullifier : List Char)
    (assetId amount : Nat) : Except String (List Nat) :=
  match hexToBytes secret with
  | .error e => .error e
  | .ok secretBytes =>
    match hexToBytes nullifier with
    | .error e => .error e
    | .ok nullifierBytes =>
      let assetIdBytes := beBytes32 assetId
      let amountBytes := beBytes32 amount
      let combined := List.replicate
        (secretBytes.length + nullifierBytes.length + assetIdBytes.length +
          amountBytes.length) 0
      let combined := uset combined secretBytes 0
      let combined := uset combined nullifierBytes secretBytes.length
      let combined := uset combined assetIdBytes
        (secretBytes.length + nullifierBytes.length)
      let combined := uset combined amountBytes
        (secretBytes.length + nullifierBytes.length + assetIdBytes.length)
      .ok (keccak combined)

/-- Reference big-endian byte encoding, little-endian digits first. -/
def natToLEBytes : Nat → Nat → List Nat
  | 0, _ => []
  | w + 1, v => v % 256 :: natToLEBytes w (v / 256)

/-- Reference `w`-byte big-endian unsigned encoding of `v`, as the spec
describes it: base-256 positional digits, most significant first. -/
def natToBEBytes (w v : Nat) : List Nat := (natToLEBytes w v).reverse

/-- Value of a little-endian base-256 digit list. -/
def leBytesVal : List Nat → Nat
  | [] => 0
  | d :: ds => d + 256 * leBytesVal ds

/-- Reference hex decoding, following the spec's words: each pair of hex
digits is one byte, high digit first. -/
def specHexDecode : List Char → List Nat
  | c0 :: c1 :: rest =>
    ((hexDigitVal c0).getD 0 * 16 + (hexDigitVal c1).getD 0) :: specHexDecode rest
  | _ => []

/-- Well-formed hex input for the encoder: after the optional "0x" the
string has even length and only hex digits. -/
def ValidHex (s : List Char) : Prop :=
  (stripPfx s).length % 2 = 0 ∧ ∀ c ∈ stripPfx s, (hexDigitVal c).isSome

instance (s : List Char) : Decidable (ValidHex s) := by
  unfold ValidHex; infer_instance

/-- Lowercase hex digit character for a value below 16: 0-9 map to the
digit characters, 10-15 to the letters a-f. -/
def hexDigitChar (n : Nat) : Char :=
  if n < 10 then Char.ofNat (48 + n) else Char.ofNat (87 + n)

/-- Rendering of hash bytes as a lowercase 0x-hex string, as the viem
library does for the value returned by keccak256. -/
def toHexString (bytes : List Nat) : String :=
  String.mk ('0' :: 'x' ::
    (bytes.map (fun b => [hexDigitChar (b / 16 % 16), hexDigitChar (b % 16)])).flatten)

/-- Structure of the Merkle proof returned by the API (merkle.ts:6-9). -/
structure MerkleProof where
  siblings : List String
  pathIndices : List Nat
deriving DecidableEq

/-- An HTTP request as issued through the fetch API: method, URL and JSON
body (GET requests carry no body). -/
inductive Request where
  | post (url : String) (body : String)
  | get (url : String)
deriving DecidableEq

/-- Network state threaded through the embedded asynchronous operations: a
logical clock and the trace of issued requests, each stamped with the clock
value at which it was sent. -/
structure NetState where
  time : Nat
  requests : List (Nat × Request)
deriving DecidableEq

/-- Outcome of one fetch: the promise rejects (network failure, with the
rejection message), or a response arrives with its ok flag, its body text
(as read by `response.text()`) and its parsed JSON body. -/
inductive FetchOutcome (β : Type) where
  | netFail (msg : String)
  | resp (ok : Bool) (text : String) (body : β)
deriving DecidableEq

/-- Parsed JSON body of a getMerkleProof response (spec section 6:
`success`, `error`, `merkleProof`). -/
structure ProofBody where
  success : Bool
  error : String
  merkleProof : MerkleProof
deriving DecidableEq

/-- Parsed JSON body of a getContractRoot response. -/
structure RootBody where
  success : Bool
  error : String
  root : String
deriving DecidableEq

/-- Parsed JSON body of a checkCommitment response. -/
structure CheckBody where
  success : Bool
  error : String
  exists_ : Bool
  index : Int
deriving DecidableEq

/-- The network environment: what each endpoint answers, as a function of
the logical time of the request (and of the request body for POSTs). -/
structure Env where
  proofAnswer : Nat → String → FetchOutcome ProofBody
  rootAnswer : Nat → FetchOutcome RootBody
  checkAnswer : Nat → String → FetchOutcome CheckBody

/-- Record one issued request: the trace grows and the clock ticks. -/
def issueRequest (s : NetState) (req : Request) : NetState :=
  { time := s.time + 1, requests := s.requests ++ [(s.time, req)] }

/-- The body `JSON.stringify(\x7b commitment \x7d)` sent by the POST
endpoints. -/
def jsonCommitment (commitment : String) : String :=
  "\x7b\"commitment\":\"" ++ commitment ++ "\"\x7d"

/-- Embedding of `getMerkleProof` (merkle.ts:68-104): POST the commitment,
throw on a non-ok response or a success:false body; the surrounding
try/catch re-wraps every failure message with a fixed prefix. -/
def getMerkleProof (env : Env) (commitment : String) (s : NetState) :
    Except String MerkleProof × NetState :=
  let body := jsonCommitment commitment
  let out := env.proofAnswer s.time body
  let s' := issueRequest s (Request.post "/api/getMerkleProof" body)
  match out with
  | .netFail msg => (.error ("Could not retrieve Merkle proof: " ++ msg), s')
  | .resp ok text data =>
    if ok then
      if data.success then (.ok data.merkleProof, s')
      else (.error ("Could not retrieve Merkle proof: " ++ ("API error: " ++ data.error)), s')
    else
      (.error ("Could not retrieve Merkle proof: " ++ ("Failed to get Merkle proof: " ++ text)), s')

/-- Embedding of `getCurrentRoot` (merkle.ts:110-138): GET the current
root, with the same error-wrapping shape as the proof fetch. -/
def getCurrentRoot (env : Env) (s : NetState) : Except String String × NetState :=
  let out := env.rootAnswer s.time
  let s' := issueRequest s (Request.get "/api/getContractRoot")
  match out with
  | .netFail msg => (.error ("Could not retrieve current root: " ++ msg), s')
  | .resp ok text data =>
    if ok then
      if data.success then (.ok data.root, s')
      else (.error ("Could not retrieve current root: " ++ ("API error: " ++ data.error)), s')
    else
      (.error ("Could not retrieve current root: " ++ ("Failed to get current root: " ++ text)), s')

/-- Embedding of `checkCommitmentExists` (merkle.ts:145-184): POST the
commitment, returning the pair (exists, index) from the body. -/
def checkCommitmentExists (env : Env) (commitment : String) (s : NetState) :
    Except String (Bool × Int) × NetState :=
  let body := jsonCommitment commitment
  let out := env.checkAnswer s.time body
  let s' := issueRequest s (Request.post "/api/checkCommitment" body)
  match out with
  | .netFail msg => (.error ("Could not check commitment: " ++ msg), s')
  | .resp ok text data =>
    if ok then
      if data.success then (.ok (data.exists_, data.index), s')
      else (.error ("Could not check commitment: " ++ ("API error: " ++ data.error)), s')
    else
      (.error ("Could not check commitment: " ++ ("Failed to check commitment: " ++ text)), s')

/-- Result triple of the withdrawal orchestrator. -/
structure WithdrawData where
  commitment : String
  merkleProof : MerkleProof
  root : String
deriving DecidableEq

/-- Embedding of `generateCommitmentAndProof` (merkle.ts:195-220): derive
the commitment (a thrown encoding error propagates, uncaught), then await
the Merkle proof, then await the current root; a rejection at either await
aborts the call and propagates. -/
def generateCommitmentAndProof (env : Env) (keccak : List Nat → List Nat)
    (secret nullifier : List Char) (assetId amount : Nat) (s : NetState) :
    Except String WithdrawData × NetState :=
  match calculateCommitment keccak secret nullifier assetId amount with
  | .error e => (.error e, s)
  | .ok commitmentBytes =>
    let commitment := toHexString commitmentBytes
    match getMerkleProof env commitment s with
    | (.error e, s') => (.error e, s')
    | (.ok merkleProof, s') =>
      match getCurrentRoot env s' with
      | (.error e, s'') => (.error e, s'')
      | (.ok root, s'') => (.ok ⟨commitment, merkleProof, root⟩, s'')

/-- The failure message `getMerkleProof` produces for a given fetch
outcome, `none` when the outcome is a success. -/
def proofFailureMsg : FetchOutcome ProofBody → Option String
  | .netFail msg => some ("Could not retrieve Merkle proof: " ++ msg)
  | .resp ok text data =>
    if ok then
      if data.success then none
      else some ("Could not retrieve Merkle proof: " ++ ("API error: " ++ data.error))
    else some ("Could not retrieve Merkle proof: " ++ ("Failed to get Merkle proof: " ++ text))

/-- Modelled from the spec: the repository's `/api/getMerkleProof` route is
not among the source files (only its client is), so the indexer collaborator
is modelled by its contract — every successful response body carries a
`merkleProof` whose `siblings` and `pathIndices` have equal length (spec
sections 3 and 6). -/
def IndexerLengthInvariant (env : Env) : Prop :=
  ∀ t body ok text pb, env.proofAnswer t body = .resp ok text pb →
    pb.success = true →
    pb.merkleProof.siblings.length = pb.merkleProof.pathIndices.length

/-- An environment whose proof endpoint constantly gives one outcome (used
for concrete response scenarios). -/
def constProofEnv (o : FetchOutcome ProofBody) : Env :=
  { proofAnswer := fun _ _ => o
    rootAnswer := fun _ => FetchOutcome.netFail "down"
    checkAnswer := fun _ _ => FetchOutcome.netFail "down" }

/-- A sample well-formed proof body. -/
def sampleProof : MerkleProof := { siblings := ["0xaa"], pathIndices := [1] }

/-- A fully successful sample environment. -/
def okEnv : Env :=
  { proofAnswer := fun _ _ => FetchOutcome.resp true "" ⟨true, "", sampleProof⟩
    rootAnswer := fun _ => FetchOutcome.resp true "" ⟨true, "", "0x10"⟩
    checkAnswer := fun _ _ => FetchOutcome.resp true "" ⟨true, "", true, 3⟩ }

/-- A starting network state. -/
def s0 : NetState := { time := 0, requests := [] }

/-- Optionally put a lowercase "0x" in front of a hex string. -/
def hexWith0x (b : Bool) (s : List Char) : List Char :=
  if b then '0' :: 'x' :: s else s

theorem uset_eq (dst : List Nat) : ∀ (src : List Nat) (off : Nat),
    off + src.length ≤ dst.length →
    uset dst src off = dst.take off ++ src ++ dst.drop (off + src.length) := by
  induction dst with
  | nil =>
    intro src off h
    simp only [List.length_nil, Nat.le_zero, Nat.add_eq_zero, List.length_eq_zero] at h
    obtain ⟨h1, h2⟩ := h
    subst h1 h2
    rfl
  | cons d ds ih =>
    intro src off h
    cases off with
    | zero =>
      cases src with
      | nil => simp [uset]
      | cons x xs =>
        simp only [List.length_cons] at h
        have := ih xs 0 (by omega)
        simp only [uset, this, Nat.zero_add, List.take_zero, List.nil_append,
          List.length_cons, List.drop_succ_cons, List.cons_append]
    | succ o =>
      simp only [List.length_cons] at h
      have := ih src o (by omega)
      simp only [uset, this, List.take_succ_cons, List.cons_append,
        List.drop_succ_cons, Nat.succ_add]

theorem uset_fill (x src : List Nat) (k : Nat) :
    uset (x ++ List.replicate (src.length + k) 0) src x.length =
      x ++ src ++ List.replicate k 0 := by
  have hlen : x.length + src.length ≤ (x ++ List.replicate (src.length + k) 0).length := by
    simp only [List.length_append, List.length_replicate]
    omega
  rw [uset_eq _ src x.length hlen]
  rw [List.take_left]
  have hdrop : (x ++ List.replicate (src.length + k) 0).drop (x.length + src.length) =
      List.replicate k 0 := by
    rw [← List.drop_drop, List.drop_left, List.drop_replicate]
    congr 1
    omega
  rw [hdrop, List.append_assoc]

theorem combined_eq (sb nb A M : List Nat) :
    uset (uset (uset (uset
      (List.replicate (sb.length + nb.length + A.length + M.length) 0) sb 0)
      nb sb.length) A (sb.length + nb.length)) M
      (sb.length + nb.length + A.length) =
    sb ++ (nb ++ (A ++ M)) := by
  have e1 : sb.length + nb.length + A.length + M.length =
      sb.length + (nb.length + (A.length + M.length)) := by omega
  rw [e1]
  have s1 : uset (List.replicate (sb.length + (nb.length + (A.length + M.length))) 0) sb 0 =
      sb ++ List.replicate (nb.length + (A.length + M.length)) 0 := by
    have := uset_fill [] sb (nb.length + (A.length + M.length))
    simpa using this
  rw [s1]
  have s2 := uset_fill sb nb (A.length + M.length)
  rw [s2]
  have s3 := uset_fill (sb ++ nb) A M.length
  rw [List.length_append] at s3
  rw [s3]
  have s4 := uset_fill (sb ++ nb ++ A) M 0
  rw [List.length_append, List.length_append, Nat.add_zero] at s4
  rw [s4]
  simp [List.append_assoc]

theorem natToLEBytes_eq_map (w : Nat) : ∀ v,
    natToLEBytes w v = (List.range w).map (fun i => v / 256 ^ i % 256) := by
  induction w with
  | zero => intro v; simp [natToLEBytes]
  | succ w ih =>
    intro v
    rw [natToLEBytes, ih (v / 256), List.range_succ_eq_map, List.map_cons,
      List.map_map]
    congr 1
    · simp
    · apply List.map_congr_left
      intro i _
      simp only [Function.comp_apply, Nat.succ_eq_add_one, pow_succ]
      rw [Nat.div_div_eq_div_mul, Nat.mul_comm]

theorem beBytes32_length (v : Nat) : (beBytes32 v).length = 32 := by
  simp [beBytes32]

theorem beBytes32_eq_natToBEBytes (v : Nat) : beBytes32 v = natToBEBytes 32 v := by
  unfold natToBEBytes
  rw [natToLEBytes_eq_map]
  apply List.ext_getElem
  · simp [beBytes32]
  · intro i h1 h2
    simp only [beBytes32, List.getElem_map, List.getElem_range,
      List.getElem_reverse, List.length_map, List.length_range,
      show (32 : Nat) - 1 = 31 from rfl]

theorem leBytesVal_natToLEBytes : ∀ (w v : Nat),
    leBytesVal (natToLEBytes w v) = v % 256 ^ w := by
  intro w
  induction w with
  | zero => intro v; simp [natToLEBytes, leBytesVal, Nat.mod_one]
  | succ w ih =>
    intro v
    rw [natToLEBytes, leBytesVal, ih (v / 256), pow_succ,
      Nat.mul_comm (256 ^ w) 256, Nat.mod_mul]

theorem beBytes32_inj (a b : Nat) (ha : a < 2 ^ 256) (hb : b < 2 ^ 256)
    (h : beBytes32 a = beBytes32 b) : a = b := by
  rw [beBytes32_eq_natToBEBytes, beBytes32_eq_natToBEBytes, natToBEBytes,
    natToBEBytes] at h
  have h' : natToLEBytes 32 a = natToLEBytes 32 b := by
    have := congrArg List.reverse h
    simpa using this
  have hv := congrArg leBytesVal h'
  rw [leBytesVal_natToLEBytes, leBytesVal_natToLEBytes] at hv
  have e : (256 : Nat) ^ 32 = 2 ^ 256 := by norm_num
  rw [e, Nat.mod_eq_of_lt ha, Nat.mod_eq_of_lt hb] at hv
  exact hv

theorem hexChar_toNat (c : Char) (h : (hexDigitVal c).isSome) :
    (48 ≤ c.toNat ∧ c.toNat ≤ 57) ∨ (97 ≤ c.toNat ∧ c.toNat ≤ 102) ∨
      (65 ≤ c.toNat ∧ c.toNat ≤ 70) := by
  unfold hexDigitVal at h
  split at h
  · exact Or.inl (by assumption)
  · split at h
    · exact Or.inr (Or.inl (by assumption))
    · split at h
      · exact Or.inr (Or.inr (by assumption))
      · simp at h

theorem hexDigitVal_lt (c : Char) (v : Nat) (h : hexDigitVal c = some v) : v < 16 := by
  unfold hexDigitVal at h
  split at h
  · injection h with h; omega
  · split at h
    · injection h with h; omega
    · split at h
      · injection h with h; omega
      · exact absurd h (by simp)

theorem hexChar_not_ws (c : Char) (h : (hexDigitVal c).isSome) :
    isJsWhitespace c = false := by
  have hb := hexChar_toNat c h
  unfold isJsWhitespace
  simp only [Bool.or_eq_false_iff, beq_eq_false_iff_ne]
  omega

theorem hexChar_ne (c : Char) (h : (hexDigitVal c).isSome) (d : Char)
    (hd : 102 < d.toNat ∨ (70 < d.toNat ∧ d.toNat < 97) ∨ (57 < d.toNat ∧ d.toNat < 65) ∨ d.toNat < 48) :
    c ≠ d := by
  have hb := hexChar_toNat c h
  intro he
  subst he
  omega

theorem parsePairHex (c0 c1 : Char) (v0 v1 : Nat)
    (h0 : hexDigitVal c0 = some v0) (h1 : hexDigitVal c1 = some v1) :
    toUint8 (jsParseInt [c0, c1]) = v0 * 16 + v1 := by
  have hs0 : (hexDigitVal c0).isSome := by rw [h0]; rfl
  have hs1 : (hexDigitVal c1).isSome := by rw [h1]; rfl
  have hv0 := hexDigitVal_lt c0 v0 h0
  have hv1 := hexDigitVal_lt c1 v1 h1
  have hw : isJsWhitespace c0 = false := hexChar_not_ws c0 hs0
  have hm : c0 ≠ '-' := hexChar_ne c0 hs0 '-' (by right; right; right; decide)
  have hp : c0 ≠ '+' := hexChar_ne c0 hs0 '+' (by right; right; right; decide)
  have hx : c1 ≠ 'x' := hexChar_ne c1 hs1 'x' (by left; decide)
  have hX : c1 ≠ 'X' := hexChar_ne c1 hs1 'X' (by right; left; decide)
  have hdw : [c0, c1].dropWhile isJsWhitespace = c0 :: [c1] := by
    simp [List.dropWhile_cons, hw]
  have hstrip : ¬(c0 = '0' ∧ (c1 = 'x' ∨ c1 = 'X')) := by
    rintro ⟨-, hc | hc⟩
    · exact hx hc
    · exact hX hc
  have hparse : jsParseUnsigned [c0, c1] = some (v0 * 16 + v1) := by
    unfold jsParseUnsigned
    simp only [hstrip, if_false, List.takeWhile_cons, hs0, hs1, if_true,
      List.takeWhile_nil, List.isEmpty_cons, List.foldl, h0, h1, Option.getD_some]
    simp
  unfold jsParseInt
  rw [hdw]
  simp only [hm, hp, if_false, hparse, Option.map_some', toUint8,
    Int.ofNat_eq_coe]
  omega

theorem decode_pairs : ∀ (h : List Char), h.length % 2 = 0 →
    (∀ c ∈ h, (hexDigitVal c).isSome) →
    (pairUp h).map (fun p => toUint8 (jsParseInt [p.1, p.2])) = specHexDecode h
  | [], _, _ => rfl
  | [_], he, _ => by simp at he
  | c0 :: c1 :: rest, he, hh => by
    have ih := decode_pairs rest
      (by simp only [List.length_cons] at he; omega)
      (fun c hc => hh c (by simp [hc]))
    obtain ⟨v0, h0⟩ := Option.isSome_iff_exists.mp (hh c0 (by simp))
    obtain ⟨v1, h1⟩ := Option.isSome_iff_exists.mp (hh c1 (by simp))
    simp only [pairUp, specHexDecode, List.map_cons, ih,
      parsePairHex c0 c1 v0 v1 h0 h1, h0, h1, Option.getD_some]

theorem hexToBytes_valid (s : List Char) (hv : ValidHex s) :
    hexToBytes s = .ok (specHexDecode (stripPfx s)) := by
  obtain ⟨heven, hhex⟩ := hv
  simp only [hexToBytes]
  rw [decode_pairs (stripPfx s) heven hhex]

theorem stripPfx_eq_self (s : List Char)
    (hs : ∀ c ∈ s, (hexDigitVal c).isSome) : stripPfx s = s := by
  unfold stripPfx
  split
  · next h =>
    exfalso
    have hx : 'x' ∈ s := by
      have hsub := List.take_subset 2 s
      apply hsub
      rw [h]
      simp
    have := hexChar_ne 'x' (hs 'x' hx) 'x' (by left; decide)
    exact this rfl
  · rfl

theorem stripPfx_0x (s : List Char) : stripPfx ('0' :: 'x' :: s) = s := by
  unfold stripPfx
  simp

theorem calculateCommitment_eq (keccak : List Nat → List Nat)
    (s n : List Char) (a m : Nat) (sb nb : List Nat)
    (hs : hexToBytes s = .ok sb) (hn : hexToBytes n = .ok nb) :
    calculateCommitment keccak s n a m =
      .ok (keccak (sb ++ (nb ++ (beBytes32 a ++ beBytes32 m)))) := by
  unfold calculateCommitment
  rw [hs, hn]
  have := combined_eq sb nb (beBytes32 a) (beBytes32 m)
  simp only [this]

theorem hexToBytes_congr (s1 s2 : List Char) (h : stripPfx s1 = stripPfx s2) :
    hexToBytes s1 = hexToBytes s2 := by
  unfold hexToBytes
  rw [h]

/-- C1: for every secret and nullifier that are valid hex strings and every
assetId and amount that are unsigned 256-bit integers, calculateCommitment
returns exactly the hash of the byte concatenation
secret_bytes ++ nullifier_bytes ++ assetId_bytes ++ amount_bytes, where the
first two are the decoded hex bytes and the last two are the 32-byte
big-endian encodings of the integers. -/
theorem c1_commitment_encoding (keccak : List Nat → List Nat)
    (secret nullifier : List Char) (assetId amount : Nat)
    (hs : ValidHex secret) (hn : ValidHex nullifier)
    (ha : assetId < 2 ^ 256) (hm : amount < 2 ^ 256) :
    calculateCommitment keccak secret nullifier assetId amount =
      .ok (keccak (specHexDecode (stripPfx secret) ++
        (specHexDecode (stripPfx nullifier) ++
          (natToBEBytes 32 assetId ++ natToBEBytes 32 amount)))) := by
  rw [calculateCommitment_eq keccak secret nullifier assetId amount _ _
    (hexToBytes_valid secret hs) (hexToBytes_valid nullifier hn),
    beBytes32_eq_natToBEBytes, beBytes32_eq_natToBEBytes]

theorem c1_commitment_encoding_witness :
    ValidHex ['0', 'x', '0', '1'] ∧ ValidHex ['0', '2'] ∧
    (1 : Nat) < 2 ^ 256 ∧ (1000000000000000000 : Nat) < 2 ^ 256 ∧
    calculateCommitment id ['0', 'x', '0', '1'] ['0', '2'] 1 1000000000000000000 =
      .ok (id (specHexDecode (stripPfx ['0', 'x', '0', '1']) ++
        (specHexDecode (stripPfx ['0', '2']) ++
          (natToBEBytes 32 1 ++ natToBEBytes 32 1000000000000000000)))) :=
  ⟨by decide, by decide, by decide, by decide,
    c1_commitment_encoding id ['0', 'x', '0', '1'] ['0', '2'] 1 1000000000000000000
      (by decide) (by decide) (by decide) (by decide)⟩

/-- C2: the claim states that malformed hex (odd length or non-hex
characters) always fails with an encoding error before any I/O and is
never silently coerced. The code violates this on both malformed shapes:
a pair with non-hex characters is parsed to NaN by parseInt and stored as
byte 0, so the secret "zz" is silently decoded to the same byte string as
"00" and yields a commitment instead of failing; and an odd-length string
is silently truncated — the fractional Uint8Array length is floored by
ToIndex — so "abc" decodes to the single byte 0xab, exactly like "ab".
No failure path for malformed hex exists in the code. -/
theorem c2_malformed_hex_silently_coerced :
    hexToBytes ['z', 'z'] = .ok [0] ∧
    hexToBytes ['0', '0'] = .ok [0] ∧
    calculateCommitment id ['z', 'z'] ['0', '2'] 1 5 =
      calculateCommitment id ['0', '0'] ['0', '2'] 1 5 ∧
    (calculateCommitment id ['z', 'z'] ['0', '2'] 1 5).isOk = true ∧
    hexToBytes ['a', 'b', 'c'] = .ok [171] ∧
    hexToBytes ['a', 'b'] = .ok [171] ∧
    calculateCommitment id ['a', 'b', 'c'] ['0', '2'] 1 5 =
      calculateCommitment id ['a', 'b'] ['0', '2'] 1 5 ∧
    (calculateCommitment id ['a', 'b', 'c'] ['0', '2'] 1 5).isOk = true :=
  ⟨by decide, by decide, rfl, rfl, by decide, by decide, rfl, rfl⟩

/-- C3 counterexample: two distinct valid input tuples (differing secret
and nullifier strings, all hex digits) whose concatenated preimages
coincide because the byte boundary between secret and nullifier shifts, so
even under an injective hash (here: the identity on byte lists, which is
injective) the commitments are equal. This refutes the claim for arbitrary
distinct tuples. -/
theorem c3_distinct_tuples_counterexample :
    Function.Injective (id : List Nat → List Nat) ∧
    ValidHex ['0', '1', '0', '2'] ∧ ValidHex ['0', '3'] ∧
    ValidHex ['0', '1'] ∧ ValidHex ['0', '2', '0', '3'] ∧
    (['0', '1', '0', '2'], ['0', '3']) ≠ (['0', '1'], ['0', '2', '0', '3']) ∧
    calculateCommitment id ['0', '1', '0', '2'] ['0', '3'] 1 1 =
      calculateCommitment id ['0', '1'] ['0', '2', '0', '3'] 1 1 :=
  ⟨Function.injective_id, by decide, by decide, by decide, by decide,
    by decide, rfl⟩

/-- C3 amended: distinct valid tuples whose secret byte strings have equal
length and whose nullifier byte strings have equal length (in particular,
tuples differing in a single input byte) produce distinct commitments when
the hash is injective. -/
theorem c3_sensitivity_equal_lengths (keccak : List Nat → List Nat)
    (hK : Function.Injective keccak)
    (s1 n1 s2 n2 : List Char) (a1 m1 a2 m2 : Nat)
    (sb1 nb1 sb2 nb2 : List Nat)
    (hs1 : hexToBytes s1 = .ok sb1) (hn1 : hexToBytes n1 = .ok nb1)
    (hs2 : hexToBytes s2 = .ok sb2) (hn2 : hexToBytes n2 = .ok nb2)
    (hsl : sb1.length = sb2.length) (hnl : nb1.length = nb2.length)
    (ha1 : a1 < 2 ^ 256) (ha2 : a2 < 2 ^ 256)
    (hm1 : m1 < 2 ^ 256) (hm2 : m2 < 2 ^ 256)
    (hne : ¬(sb1 = sb2 ∧ nb1 = nb2 ∧ a1 = a2 ∧ m1 = m2)) :
    calculateCommitment keccak s1 n1 a1 m1 ≠
      calculateCommitment keccak s2 n2 a2 m2 := by
  rw [calculateCommitment_eq keccak s1 n1 a1 m1 sb1 nb1 hs1 hn1,
    calculateCommitment_eq keccak s2 n2 a2 m2 sb2 nb2 hs2 hn2]
  intro h
  injection h with h
  have hpre := hK h
  obtain ⟨e1, hrest⟩ := List.append_inj hpre hsl
  obtain ⟨e2, hrest2⟩ := List.append_inj hrest hnl
  obtain ⟨e3, e4⟩ := List.append_inj hrest2
    (by rw [beBytes32_length, beBytes32_length])
  exact hne ⟨e1, e2, beBytes32_inj a1 a2 ha1 ha2 e3,
    beBytes32_inj m1 m2 hm1 hm2 e4⟩

theorem c3_sensitivity_equal_lengths_witness :
    calculateCommitment id ['0', '1'] ['0', '3'] 1 1 ≠
      calculateCommitment id ['0', '2'] ['0', '3'] 1 1 :=
  c3_sensitivity_equal_lengths id Function.injective_id
    ['0', '1'] ['0', '3'] ['0', '2'] ['0', '3'] 1 1 1 1
    [1] [3] [2] [3] (by decide) (by decide) (by decide) (by decide)
    rfl rfl (by decide) (by decide) (by decide) (by decide) (by decide)

/-- C9: calculateCommitment is a pure, deterministic function — it is
embedded without any environment or state argument, and two calls with
identical inputs yield identical output. -/
theorem c9_commitment_deterministic (keccak : List Nat → List Nat)
    (s1 n1 : List Char) (a1 m1 : Nat) (s2 n2 : List Char) (a2 m2 : Nat)
    (hs : s1 = s2) (hn : n1 = n2) (ha : a1 = a2) (hm : m1 = m2) :
    calculateCommitment keccak s1 n1 a1 m1 =
      calculateCommitment keccak s2 n2 a2 m2 := by
  subst hs hn ha hm
  rfl

theorem c9_commitment_deterministic_witness :
    calculateCommitment id ['0', '1'] ['0', '2'] 1 5 =
      calculateCommitment id ['0', '1'] ['0', '2'] 1 5 :=
  c9_commitment_deterministic id ['0', '1'] ['0', '2'] 1 5 ['0', '1'] ['0', '2'] 1 5
    rfl rfl rfl rfl

/-- C10: for hex-digit secrets and nullifiers of even length, prepending a
"0x" prefix to either input does not change the commitment, because the
prefix is stripped before decoding. -/
theorem c10_prefix_insensitive (keccak : List Nat → List Nat)
    (secret nullifier : List Char) (assetId amount : Nat) (b1 b2 : Bool)
    (hs : ∀ c ∈ secret, (hexDigitVal c).isSome)
    (hn : ∀ c ∈ nullifier, (hexDigitVal c).isSome)
    (hse : secret.length % 2 = 0) (hne : nullifier.length % 2 = 0) :
    calculateCommitment keccak (hexWith0x b1 secret) (hexWith0x b2 nullifier)
        assetId amount =
      calculateCommitment keccak secret nullifier assetId amount := by
  have k1 : hexToBytes (hexWith0x b1 secret) = hexToBytes secret := by
    cases b1
    · rfl
    · exact hexToBytes_congr _ _
        (by rw [show hexWith0x true secret = '0' :: 'x' :: secret from rfl,
          stripPfx_0x, stripPfx_eq_self secret hs])
  have k2 : hexToBytes (hexWith0x b2 nullifier) = hexToBytes nullifier := by
    cases b2
    · rfl
    · exact hexToBytes_congr _ _
        (by rw [show hexWith0x true nullifier = '0' :: 'x' :: nullifier from rfl,
          stripPfx_0x, stripPfx_eq_self nullifier hn])
  unfold calculateCommitment
  rw [k1, k2]

theorem c10_prefix_insensitive_witness :
    calculateCommitment id (hexWith0x true ['0', '1']) (hexWith0x false ['0', '2']) 1 5 =
      calculateCommitment id ['0', '1'] ['0', '2'] 1 5 :=
  c10_prefix_insensitive id ['0', '1'] ['0', '2'] 1 5 true false
    (by decide) (by decide) (by decide) (by decide)

theorem string_append_right_inj (p x y : String) (h : p ++ x = p ++ y) : x = y := by
  have hd := congrArg String.data h
  simp only [String.data_append] at hd
  exact String.ext ((List.append_right_inj p.data).mp hd)

theorem failed_ne_api (t e : String) :
    ("Failed to get Merkle proof: " ++ t) ≠ ("API error: " ++ e) := by
  intro h
  have hd := congrArg String.data h
  simp only [String.data_append] at hd
  simp only [List.cons_append, List.cons.injEq] at hd
  exact absurd hd.1 (by decide)

/-- C4: generateCommitmentAndProof works in strict order: it derives the
commitment, then issues the proof request (keyed by the JSON-encoded
commitment) at clock t, then the root request at clock t+1 — so the root is
fetched no earlier than the proof — and the root in the returned triple is
exactly the environment's answer at clock t+1 of this very call, never an
earlier cached value. -/
theorem c4_strict_order_fresh_root (env : Env) (keccak : List Nat → List Nat)
    (secret nullifier : List Char) (assetId amount : Nat) (s : NetState)
    (cb : List Nat) (txt txt2 : String) (pb : ProofBody) (rb : RootBody)
    (hc : calculateCommitment keccak secret nullifier assetId amount = .ok cb)
    (hp : env.proofAnswer s.time (jsonCommitment (toHexString cb)) =
      .resp true txt pb)
    (hps : pb.success = true)
    (hr : env.rootAnswer (s.time + 1) = .resp true txt2 rb)
    (hrs : rb.success = true) :
    generateCommitmentAndProof env keccak secret nullifier assetId amount s =
      (.ok ⟨toHexString cb, pb.merkleProof, rb.root⟩,
       { time := s.time + 2,
         requests := s.requests ++
           [(s.time, Request.post "/api/getMerkleProof"
              (jsonCommitment (toHexString cb))),
            (s.time + 1, Request.get "/api/getContractRoot")] }) := by
  unfold generateCommitmentAndProof
  rw [hc]
  simp only [getMerkleProof, getCurrentRoot, issueRequest, hp, hps, hr, hrs,
    if_true, List.append_assoc, List.cons_append, List.nil_append]

theorem c4_strict_order_fresh_root_witness :
    generateCommitmentAndProof okEnv (fun _ => []) ['0', '1'] ['0', '2'] 1 5 s0 =
      (.ok ⟨toHexString [], sampleProof, "0x10"⟩,
       { time := 2,
         requests := [(0, Request.post "/api/getMerkleProof"
            (jsonCommitment (toHexString []))),
          (1, Request.get "/api/getContractRoot")] }) := by
  have := c4_strict_order_fresh_root okEnv (fun _ => []) ['0', '1'] ['0', '2'] 1 5 s0
    [] "" "" ⟨true, "", sampleProof⟩ ⟨true, "", "0x10"⟩ rfl rfl rfl rfl rfl
  simpa using this

/-- C5: when the proof fetch fails (network failure, non-ok response, or a
success:false body), generateCommitmentAndProof fails with exactly the
wrapped error message produced by getMerkleProof — which carries the
original message — returns no partial triple, and never issues the root
request. -/
theorem c5_proof_failure_propagates (env : Env) (keccak : List Nat → List Nat)
    (secret nullifier : List Char) (assetId amount : Nat) (s : NetState)
    (cb : List Nat) (msg : String)
    (hc : calculateCommitment keccak secret nullifier assetId amount = .ok cb)
    (hfail : proofFailureMsg
      (env.proofAnswer s.time (jsonCommitment (toHexString cb))) = some msg) :
    generateCommitmentAndProof env keccak secret nullifier assetId amount s =
      (.error msg,
       { time := s.time + 1,
         requests := s.requests ++
           [(s.time, Request.post "/api/getMerkleProof"
              (jsonCommitment (toHexString cb)))] }) := by
  have hgm : getMerkleProof env (toHexString cb) s =
      (.error msg, issueRequest s
        (Request.post "/api/getMerkleProof" (jsonCommitment (toHexString cb)))) := by
    simp only [getMerkleProof]
    cases hout : env.proofAnswer s.time (jsonCommitment (toHexString cb)) with
    | netFail m =>
      rw [hout] at hfail
      simp only [proofFailureMsg, Option.some.injEq] at hfail
      simp [hfail]
    | resp ok text data =>
      rw [hout] at hfail
      simp only [proofFailureMsg] at hfail
      cases ok with
      | false =>
        simp only [Bool.false_eq_true, if_false, Option.some.injEq] at hfail
        simp [hfail]
      | true =>
        simp only [if_true] at hfail
        cases hsucc : data.success with
        | false =>
          rw [hsucc] at hfail
          simp only [Bool.false_eq_true, if_false, Option.some.injEq] at hfail
          simp [hsucc, hfail]
        | true =>
          rw [hsucc] at hfail
          simp at hfail
  simp only [generateCommitmentAndProof, hc, hgm, issueRequest]

theorem c5_proof_failure_propagates_witness :
    generateCommitmentAndProof
        (constProofEnv (.resp false "boom" ⟨true, "", sampleProof⟩))
        (fun _ => []) ['0', '1'] ['0', '2'] 1 5 s0 =
      (.error ("Could not retrieve Merkle proof: " ++
          ("Failed to get Merkle proof: " ++ "boom")),
       { time := 1,
         requests := [(0, Request.post "/api/getMerkleProof"
            (jsonCommitment (toHexString [])))] }) := by
  have := c5_proof_failure_propagates
    (constProofEnv (.resp false "boom" ⟨true, "", sampleProof⟩))
    (fun _ => []) ['0', '1'] ['0', '2'] 1 5 s0 []
    ("Could not retrieve Merkle proof: " ++
      ("Failed to get Merkle proof: " ++ "boom")) rfl rfl
  simpa using this

/-- C6: every MerkleProof returned by a successful getMerkleProof call has
as many siblings as pathIndices, given the (spec-modelled) indexer
collaborator contract that every successful response body satisfies this
length invariant — the client returns the body's proof unchanged. -/
theorem c6_proof_length_invariant (env : Env) (hinv : IndexerLengthInvariant env)
    (c : String) (s s' : NetState) (mp : MerkleProof)
    (h : getMerkleProof env c s = (.ok mp, s')) :
    mp.siblings.length = mp.pathIndices.length := by
  simp only [getMerkleProof] at h
  cases hout : env.proofAnswer s.time (jsonCommitment c) with
  | netFail m =>
    rw [hout] at h
    simp at h
  | resp ok text data =>
    rw [hout] at h
    cases ok with
    | false => simp at h
    | true =>
      cases hsucc : data.success with
      | false => simp [hsucc] at h
      | true =>
        simp only [hsucc, if_true, Prod.mk.injEq, Except.ok.injEq] at h
        have hlen := hinv s.time (jsonCommitment c) true text data hout hsucc
        rw [h.1] at hlen
        exact hlen

theorem c6_proof_length_invariant_witness :
    sampleProof.siblings.length = sampleProof.pathIndices.length :=
  c6_proof_length_invariant okEnv
    (fun t body ok text pb hpb hs => by
      injection hpb with h1 h2 h3
      rw [← h3]
      rfl)
    "0xc" s0
    { time := 1,
      requests := [(0, Request.post "/api/getMerkleProof" (jsonCommitment "0xc"))] }
    sampleProof rfl

/-- C7 counterexample: the claim says a service failure (which includes a
network failure) and a commitment-not-found outcome are always
distinguishable by the caller. The code collapses both into a generic
Error whose message is the only distinguishing data, so a network failure
whose rejection message happens to read "API error: gone" produces exactly
the same error value — and the same state — as a not-found response with
error "gone": the two outcomes are indistinguishable. -/
theorem c7_collapse_counterexample :
    getMerkleProof (constProofEnv (.netFail "API error: gone")) "0x01" s0 =
      getMerkleProof
        (constProofEnv (.resp true "" ⟨false, "gone", sampleProof⟩)) "0x01" s0 := by
  decide

/-- C7 amended: a non-success HTTP response and a commitment-not-found
(success:false) response always surface as errors with distinct messages;
a network failure also surfaces as an error, distinguishable from the
not-found outcome whenever its transport message is not itself of the form
"API error: ...". -/
theorem c7_error_distinction (c text netMsg : String) (s : NetState)
    (pb1 pb2 : ProofBody) (h2s : pb2.success = false)
    (hnet : netMsg ≠ "API error: " ++ pb2.error) :
    (∃ m1, (getMerkleProof (constProofEnv (.resp false text pb1)) c s).1 =
      .error m1) ∧
    (∃ m2, (getMerkleProof (constProofEnv (.resp true "" pb2)) c s).1 =
      .error m2) ∧
    (∃ m3, (getMerkleProof (constProofEnv (.netFail netMsg)) c s).1 =
      .error m3) ∧
    (getMerkleProof (constProofEnv (.resp false text pb1)) c s).1 ≠
      (getMerkleProof (constProofEnv (.resp true "" pb2)) c s).1 ∧
    (getMerkleProof (constProofEnv (.netFail netMsg)) c s).1 ≠
      (getMerkleProof (constProofEnv (.resp true "" pb2)) c s).1 := by
  have r1 : (getMerkleProof (constProofEnv (.resp false text pb1)) c s).1 =
      .error ("Could not retrieve Merkle proof: " ++
        ("Failed to get Merkle proof: " ++ text)) := by
    simp [getMerkleProof, constProofEnv, issueRequest]
  have r2 : (getMerkleProof (constProofEnv (.resp true "" pb2)) c s).1 =
      .error ("Could not retrieve Merkle proof: " ++
        ("API error: " ++ pb2.error)) := by
    simp [getMerkleProof, constProofEnv, issueRequest, h2s]
  have r3 : (getMerkleProof (constProofEnv (.netFail netMsg)) c s).1 =
      .error ("Could not retrieve Merkle proof: " ++ netMsg) := by
    simp [getMerkleProof, constProofEnv, issueRequest]
  refine ⟨⟨_, r1⟩, ⟨_, r2⟩, ⟨_, r3⟩, ?_, ?_⟩
  · rw [r1, r2]
    intro h
    injection h with h
    exact failed_ne_api text pb2.error (string_append_right_inj _ _ _ h)
  · rw [r3, r2]
    intro h
    injection h with h
    exact hnet (string_append_right_inj _ _ _ h)

theorem c7_error_distinction_witness :
    (∃ m1, (getMerkleProof (constProofEnv (.resp false "500"
        ⟨true, "", sampleProof⟩)) "0xc" s0).1 = .error m1) ∧
    (∃ m2, (getMerkleProof (constProofEnv (.resp true ""
        ⟨false, "nf", sampleProof⟩)) "0xc" s0).1 = .error m2) ∧
    (∃ m3, (getMerkleProof (constProofEnv (.netFail "Failed to fetch"))
        "0xc" s0).1 = .error m3) ∧
    (getMerkleProof (constProofEnv (.resp false "500"
        ⟨true, "", sampleProof⟩)) "0xc" s0).1 ≠
      (getMerkleProof (constProofEnv (.resp true ""
        ⟨false, "nf", sampleProof⟩)) "0xc" s0).1 ∧
    (getMerkleProof (constProofEnv (.netFail "Failed to fetch")) "0xc" s0).1 ≠
      (getMerkleProof (constProofEnv (.resp true ""
        ⟨false, "nf", sampleProof⟩)) "0xc" s0).1 :=
  c7_error_distinction "0xc" "500" "Failed to fetch" s0
    ⟨true, "", sampleProof⟩ ⟨false, "nf", sampleProof⟩ rfl (by decide)

/-- C8: the raw secret and nullifier reach the network only through the
derived commitment — two runs whose inputs produce the same commitment
issue identical requests and return identical results — and the request
bodies of the POST operations are exactly the JSON-encoded commitment. -/
theorem c8_secret_noninterference (env : Env) (keccak : List Nat → List Nat)
    (s1 n1 s2 n2 : List Char) (assetId amount : Nat) (st : NetState) (c : String)
    (h : calculateCommitment keccak s1 n1 assetId amount =
      calculateCommitment keccak s2 n2 assetId amount) :
    generateCommitmentAndProof env keccak s1 n1 assetId amount st =
      generateCommitmentAndProof env keccak s2 n2 assetId amount st ∧
    (getMerkleProof env c st).2.requests =
      st.requests ++
        [(st.time, Request.post "/api/getMerkleProof" (jsonCommitment c))] ∧
    (checkCommitmentExists env c st).2.requests =
      st.requests ++
        [(st.time, Request.post "/api/checkCommitment" (jsonCommitment c))] := by
  refine ⟨?_, ?_, ?_⟩
  · unfold generateCommitmentAndProof
    rw [h]
  · simp only [getMerkleProof, issueRequest]
    cases env.proofAnswer st.time (jsonCommitment c) with
    | netFail m => rfl
    | resp ok text data =>
      cases ok with
      | false => rfl
      | true => cases hds : data.success <;> simp [hds]
  · simp only [checkCommitmentExists, issueRequest]
    cases env.checkAnswer st.time (jsonCommitment c) with
    | netFail m => rfl
    | resp ok text data =>
      cases ok with
      | false => rfl
      | true => cases hds : data.success <;> simp [hds]

theorem c8_secret_noninterference_witness :
    generateCommitmentAndProof okEnv (fun _ => []) ['0', '1'] ['0', '3'] 1 5 s0 =
      generateCommitmentAndProof okEnv (fun _ => []) ['0', '2'] ['0', '3'] 1 5 s0 ∧
    (getMerkleProof okEnv "0xc" s0).2.requests =
      s0.requests ++
        [(s0.time, Request.post "/api/getMerkleProof" (jsonCommitment "0xc"))] ∧
    (checkCommitmentExists okEnv "0xc" s0).2.requests =
      s0.requests ++
        [(s0.time, Request.post "/api/checkCommitment" (jsonCommitment "0xc"))] :=
  c8_secret_noninterference okEnv (fun _ => []) ['0', '1'] ['0', '3'] ['0', '2'] ['0', '3']
    1 5 s0 "0xc" rfl

